import Mathlib

/-!
Verification development for the StarkShift cross-venue arbitrage engine.

The definitions below are shallow embeddings of the Python sources:
* `src/starknet_arbitrage/core/types.py` — domain types,
* `src/starknet_arbitrage/arbitrage.py` — the `Arbitrage.run` decision loop,
* `src/starknet_arbitrage/strategies/spread/simple.py` — `SimpleSpreadStrategy`,
* `src/starkshift/strategies/amounts/simple.py` — `SimpleAmountStrategy`,
* `src/starknet_arbitrage/price_monitor.py` — `SpreadMonitor.run`,
* `src/starknet_arbitrage/__main__.py` — `Config`.

Python `Decimal` values are modelled as `ℚ`.  Venues (exchange adapter
instances) are identified by their display name (`String`); Python compares
them by object identity, which string equality stands in for here.  Opaque
`raw` payloads are dropped except where the code inspects them (the price
monitor).  Async queues and awaits vanish in the embedding: the decision loop
is a pure step function over the state it mutates, consuming one
`(event, venue)` pair of the merged stream at a time and returning the new
state together with the list of observable effects (spread evaluations, order
placements, monitor rows) the iteration performs.
-/

namespace StarkShift

/-- A venue (exchange adapter instance), identified by its display name. -/
abbrev Venue := String

/-- `Token` from `core/types.py`: name, address, decimals. -/
structure Token where
  name : String
  address : String
  decimals : ℤ
deriving DecidableEq, Repr

/-- `Symbol` from `core/types.py`: ordered pair of base and quote token. -/
structure Symbol where
  base : Token
  quote : Token
deriving DecidableEq, Repr

/-- `Ticker` from `core/types.py` (the opaque `raw` payload is dropped:
the decision loop never inspects it). -/
structure Ticker where
  bid : ℚ
  bid_amount : ℚ
  ask : ℚ
  ask_amount : ℚ
deriving DecidableEq, Repr

/-- `Wallet` from `core/types.py` (opaque `raw` dropped). -/
structure Wallet where
  token : Token
  amount : ℚ
deriving DecidableEq, Repr

/-- `Wallet.empty` from `core/types.py`: zero balance for a token. -/
def Wallet.empty (token : Token) : Wallet := ⟨token, 0⟩

/-- `Order` from `core/types.py` (opaque `raw` dropped); `side` is the
`order` field (`"buy"` or `"sell"`). -/
structure Order where
  symbol : Symbol
  amount : ℚ
  price : ℚ
  side : String
deriving DecidableEq, Repr

/-- One row appended by the spread monitor
(`SpreadMonitor.run`, `price_monitor.py` lines 100-118).  The sqlite row
stringifies the numbers; the numeric values are kept here.  `timestamp`
abstracts `datetime.datetime.now()`. -/
structure SpreadRow where
  timestamp : ℕ
  exA : String
  exB : String
  spread_prices : ℚ
  spread_perc : ℚ
  spread_ex1 : ℚ
  spread_ex1_perc : ℚ
  spread_ex2 : ℚ
  spread_ex2_perc : ℚ
  a_last : ℚ
  a_bid : ℚ
  a_ask : ℚ
  b_last : ℚ
  b_bid : ℚ
  b_ask : ℚ
deriving DecidableEq, Repr

/-- Observable effects of one iteration of a decision loop: the spread the
loop computes and logs, the two market-order calls, and the monitor's
appended rows. -/
inductive Effect where
  | evalSpread (spread : ℚ)
  | buy (venue : Venue) (amount : ℚ) (context : Ticker)
  | sell (venue : Venue) (amount : ℚ) (context : Ticker)
  | insertRow (row : SpreadRow)
deriving DecidableEq, Repr

/-! ### The `starknet_arbitrage` decision loop (`arbitrage.py`) -/

namespace Arbitrage

/-- Constructor arguments of `Arbitrage.__init__` (`arbitrage.py` lines
17-31) that the run loop reads. -/
structure Params where
  symbol : Symbol
  threshold : ℚ
  trade_amount : ℚ
  min_trade_amount : ℚ

/-- Mutable state of `Arbitrage.run` (`arbitrage.py` lines 68-78).
`bestAsk = none` models the initial sentinel ticker with
`ask = Decimal("INFINITY")` (every real ask compares `≤` it), and
`bestBid = none` the sentinel with `bid = Decimal("-INFINITY")`; the
initial `exchange_ask = exchange_bid = exchanges[0]` assignment is
likewise absorbed into the sentinel, which is only ever replaced before
the venue comparison can be reached. -/
structure State where
  bestAsk : Option (Ticker × Venue)
  bestBid : Option (Ticker × Venue)
  wallets : Venue → String → Wallet

/-- Events of the merged queue that `run` matches on
(`arbitrage.py` lines 83-86). -/
inductive Event where
  | wallet (w : Wallet)
  | ticker (t : Ticker)

/-- `arbitrage.py` lines 87-90: keep the incoming ticker as best ask iff
`msg.ask <= best_ask.ask` (ties go to the newest observation). -/
def updateBestAsk (best : Option (Ticker × Venue)) (t : Ticker) (v : Venue) :
    Option (Ticker × Venue) :=
  match best with
  | none => some (t, v)
  | some (bt, bv) => if t.ask ≤ bt.ask then some (t, v) else some (bt, bv)

/-- `arbitrage.py` lines 92-95: keep the incoming ticker as best bid iff
`msg.bid >= best_bid.bid` (ties go to the newest observation). -/
def updateBestBid (best : Option (Ticker × Venue)) (t : Ticker) (v : Venue) :
    Option (Ticker × Venue) :=
  match best with
  | none => some (t, v)
  | some (bt, bv) => if bt.bid ≤ t.bid then some (t, v) else some (bt, bv)

/-- `Arbitrage._calculate_spread` (`arbitrage.py` lines 45-47).
`ℚ` totalizes division with `bid / 0 = 0`, where `Decimal` would raise;
the run loop reaches this call only through the theorems' hypotheses on
finite tickers, and no claim below depends on the `bid = 0` value. -/
def calculateSpread (ask bid : ℚ) : ℚ :=
  (bid - ask) / bid

/-- `Arbitrage._calculate_amount` (`arbitrage.py` lines 49-62):
`min(trade_amount, ask.ask_amount, bid.bid_amount)` then
`min(amount, wallet_bid, wallet_ask * ask.ask)`. -/
def calculateAmount (p : Params) (ask bid : Ticker)
    (wallet_ask wallet_bid : ℚ) : ℚ :=
  let amount := min (min p.trade_amount ask.ask_amount) bid.bid_amount
  min (min amount wallet_bid) (wallet_ask * ask.ask)

/-- One iteration of the `while True` body of `Arbitrage.run`
(`arbitrage.py` lines 80-145) on a dequeued `(msg, exchange)` pair.
The `| _, _` fallback is unreachable: a ticker always replaces the
sentinels.  Note the wallet balances handed to `_calculate_amount`
(lines 116-117): `wallets[exchange_ask][base].amount` as `wallet_ask`
and `wallets[exchange_bid][quote].amount` as `wallet_bid`. -/
def step (p : Params) (s : State) : Event → Venue → State × List Effect
  | .wallet w, v =>
      ({ s with wallets := fun ex n =>
          if ex = v ∧ n = w.token.name then w else s.wallets ex n }, [])
  | .ticker t, v =>
      let bestAsk := updateBestAsk s.bestAsk t v
      let bestBid := updateBestBid s.bestBid t v
      let s1 : State := { s with bestAsk := bestAsk, bestBid := bestBid }
      match bestAsk, bestBid with
      | some (ta, va), some (tb, vb) =>
          -- Same exchange, skip (line 98)
          if vb = va then (s1, [])
          else
            let spread := calculateSpread ta.ask tb.bid
            if p.threshold ≤ spread then
              let amount := calculateAmount p ta tb
                (s.wallets va p.symbol.base.name).amount
                (s.wallets vb p.symbol.quote.name).amount
              if amount ≤ p.min_trade_amount then (s1, [.evalSpread spread])
              else
                (s1, [.evalSpread spread,
                      .buy va amount ta, .sell vb amount tb])
            else (s1, [.evalSpread spread])
      | _, _ => (s1, [])

/-- Initial state of `Arbitrage.run` (`arbitrage.py` lines 68-78): sentinel
extrema and one `Wallet.empty` per venue for the base and the quote token.
The Python dict holds exactly the two token-name keys; the function model
extends it with an empty wallet for a fresh token at any other name, which
the loop never reads. -/
def initState (p : Params) : State where
  bestAsk := none
  bestBid := none
  wallets := fun _ n =>
    if n = p.symbol.base.name then Wallet.empty p.symbol.base
    else if n = p.symbol.quote.name then Wallet.empty p.symbol.quote
    else Wallet.empty ⟨n, "", 0⟩

/-- Run the loop over a list of dequeued `(msg, exchange)` pairs,
accumulating the effects of every iteration. -/
def runLoop (p : Params) (s : State) : List (Event × Venue) → State × List Effect
  | [] => (s, [])
  | (e, v) :: rest =>
      let (s1, effs) := step p s e v
      let (s2, moreEffs) := runLoop p s1 rest
      (s2, effs ++ moreEffs)

end Arbitrage

/-! ### `SimpleSpreadStrategy` (`strategies/spread/simple.py`) -/

namespace SimpleSpreadStrategy

/-- Faults `Decimal` arithmetic raises in the spread computation. -/
inductive DecimalError where
  | divisionByZero
deriving DecidableEq, Repr

/-- `SimpleSpreadStrategy.spread` (`simple.py` lines 20-23):
`(bid.bid - ask.ask) / bid.bid`.  A zero divisor is modelled as the
`DivisionByZero` the `Decimal` quotient raises; there is no guard in the
source. -/
def spreadCalc (ask bid : Ticker) : Except DecimalError ℚ :=
  if bid.bid = 0 then .error .divisionByZero
  else .ok ((bid.bid - ask.ask) / bid.bid)

/-- `SimpleSpreadStrategy.profitable_trade` (`simple.py` lines 25-28):
the pair `(spread >= threshold, spread)`. -/
def profitable_trade (threshold : ℚ) (ask bid : Ticker) :
    Except DecimalError (Bool × ℚ) :=
  match spreadCalc ask bid with
  | .error e => .error e
  | .ok s => .ok (decide (threshold ≤ s), s)

end SimpleSpreadStrategy

/-! ### `SimpleAmountStrategy` (`src/starkshift/strategies/amounts/simple.py`) -/

namespace SimpleAmountStrategy

/-- `SimpleAmountStrategy.calculate_amount` (`simple.py` lines 21-33):
`min(trade_amount, ask.ask_amount, bid.bid_amount)`, further capped by
`min(amount, wallet_bid.amount, wallet_ask.amount * ask.ask)`; `None`
when the result is strictly below `min_amount`. -/
def calculate_amount (trade_amount min_amount : ℚ) (ask bid : Ticker)
    (wallet_ask wallet_bid : Wallet) : Option ℚ :=
  let amount := min (min trade_amount ask.ask_amount) bid.bid_amount
  let amount := min (min amount wallet_bid.amount) (wallet_ask.amount * ask.ask)
  if amount < min_amount then none else some amount

end SimpleAmountStrategy

/-! ### The `starkshift` execution coordinator

`src/starkshift/__main__.py` builds `Arbitrage([binance, avnu], symbol,
spread_strategy, amount_strategy, max_amount_trade)` from
`starkshift.arbitrage`, but that module is not part of the source tree
snapshot; the coordinator below is modelled from the spec (§4.2, §4.5). -/

namespace Coordinator

/-- Modelled from the spec: the `SimpleSpreadStrategy` of
`src/starkshift/strategies/spread/simple.py` (imported by
`src/starkshift/__main__.py`) is absent from the tree; per §4.3 the
reference policy is `spread = (bid.bid - ask.ask) / bid.bid`, profitable
iff `spread ≥ threshold`, and a zero or negative bid is guarded before
dividing and treated as not profitable. -/
def specSpreadEval (threshold : ℚ) (ask bid : Ticker) : Bool × ℚ :=
  if bid.bid ≤ 0 then (false, 0)
  else
    let spread := (bid.bid - ask.ask) / bid.bid
    (decide (threshold ≤ spread), spread)

/-- Configuration the coordinator reads: the symbol, the spread threshold
and the amount strategy's caps (`max_amount_trade`, `min_amount_trade`). -/
structure Params where
  symbol : Symbol
  threshold : ℚ
  max_amount_trade : ℚ
  min_amount_trade : ℚ

/-- Modelled from the spec: state of the missing
`src/starkshift/arbitrage.py` coordinator loop — the §4.2 tracker fields
plus the §4.5 outstanding-order venue set (`waiting`).  `IDLE` is
`waiting = []`; `PENDING` is `waiting ≠ []`. -/
structure State where
  bestAsk : Option (Ticker × Venue)
  bestBid : Option (Ticker × Venue)
  wallets : Venue → String → Wallet
  waiting : List Venue

/-- Events of the merged stream seen by the coordinator: tickers, wallet
snapshots, and order fill acks. -/
inductive Event where
  | wallet (w : Wallet)
  | ticker (t : Ticker)
  | order (o : Order)

/-- Modelled from the spec: one iteration of the missing
`src/starkshift/arbitrage.py` run loop on a dequeued `(event, venue)`
pair, per §4.2 (tracker updates, self-arbitrage skip, hand-off to the
decision stage only when no trade is in flight) and §4.5 (transitions of
the pending-set state machine).  The amount strategy is the
`SimpleAmountStrategy` of `src/starkshift/strategies/amounts/simple.py`,
handed the ask venue's quote-token wallet and the bid venue's base-token
wallet (§4.4). -/
def step (p : Params) (s : State) : Event → Venue → State × List Effect
  | .wallet w, v =>
      ({ s with wallets := fun ex n =>
          if ex = v ∧ n = w.token.name then w else s.wallets ex n }, [])
  | .order _, v =>
      ({ s with waiting := s.waiting.erase v }, [])
  | .ticker t, v =>
      let bestAsk := Arbitrage.updateBestAsk s.bestAsk t v
      let bestBid := Arbitrage.updateBestBid s.bestBid t v
      let s1 : State := { s with bestAsk := bestAsk, bestBid := bestBid }
      match bestAsk, bestBid with
      | some (ta, va), some (tb, vb) =>
          if va = vb then (s1, [])
          else if s.waiting ≠ [] then (s1, [])
          else
            let (isProfitable, spread) := specSpreadEval p.threshold ta tb
            if isProfitable then
              match SimpleAmountStrategy.calculate_amount
                  p.max_amount_trade p.min_amount_trade ta tb
                  (s.wallets va p.symbol.quote.name)
                  (s.wallets vb p.symbol.base.name) with
              | some amount =>
                  ({ s1 with waiting := [va, vb] },
                   [.evalSpread spread,
                    .buy va amount ta, .sell vb amount tb])
              | none => (s1, [.evalSpread spread])
            else (s1, [.evalSpread spread])
      | _, _ => (s1, [])

/-- Run the coordinator over a list of dequeued `(event, venue)` pairs. -/
def runLoop (p : Params) (s : State) : List (Event × Venue) → State × List Effect
  | [] => (s, [])
  | (e, v) :: rest =>
      let (s1, effs) := step p s e v
      let (s2, moreEffs) := runLoop p s1 rest
      (s2, effs ++ moreEffs)

end Coordinator

/-! ### `Config` (`src/starknet_arbitrage/__main__.py`) -/

namespace Config

/-- Errors `Config.__init__` can raise over a key lookup: the explicit
`ValidationError` of the required-key loop, or Python's `KeyError` from a
direct `config[key]` subscript on a missing key. -/
inductive ConfigError where
  | validationError (key : String)
  | keyError (key : String)
deriving DecidableEq, Repr

/-- First value bound to a key in an association-list model of the Python
`config` dict. -/
def findKey (k : String) : List (String × String) → Option String
  | [] => none
  | (a, b) :: rest => if a = k then some b else findKey k rest

/-- `Config.REQUIRED_KEYS` (`__main__.py` lines 29-42), in the literal's
order (Python set iteration order is unspecified; no claim depends on
which of several missing keys is named first). -/
def REQUIRED_KEYS : List String :=
  ["BASE_ADDR", "BASE_DECIMALS", "BASE",
   "QUOTE_ADDR", "QUOTE_DECIMALS", "QUOTE",
   "API_KEY", "SECRET_KEY", "SIGNER_KEY", "NODE_URL",
   "SPREAD_THRESHOLD", "MAX_AMOUNT_TRADE"]

/-- The `for key in self.REQUIRED_KEYS` loop (`__main__.py` lines 45-47):
raise `ValidationError` naming the first missing required key. -/
def checkRequired (c : List (String × String)) :
    List String → Except ConfigError Unit
  | [] => .ok ()
  | k :: rest =>
      match findKey k c with
      | some _ => checkRequired c rest
      | none => .error (.validationError k)

/-- The `config[key]` subscripts of `Config.__init__` in source order
(`__main__.py` lines 49-66, constructor arguments evaluated left to
right): `KeyError` on the first absent key. -/
def readAll (c : List (String × String)) :
    List String → Except ConfigError Unit
  | [] => .ok ()
  | k :: rest =>
      match findKey k c with
      | some _ => readAll c rest
      | none => .error (.keyError k)

/-- The keys `Config.__init__` subscripts after the required-key loop, in
the order the source reads them (`__main__.py` lines 49-66). -/
def READ_ORDER : List String :=
  ["BASE", "BASE_ADDR", "BASE_DECIMALS",
   "QUOTE", "QUOTE_ADDR", "QUOTE_DECIMALS",
   "API_KEY", "SECRET_KEY", "NODE_URL",
   "ACCOUNT_ADDRESS", "SIGNER_KEY",
   "SPREAD_THRESHOLD", "MAX_AMOUNT_TRADE", "MIN_AMOUNT_TRADE"]

/-- `Config.__init__` (`__main__.py` lines 44-66): the required-key loop,
then the field reads in source order.  The `int`/`Decimal` parses and the
`Token`/`Symbol` construction are elided — they consume the looked-up
strings and raise no key errors. -/
def init (c : List (String × String)) : Except ConfigError Unit := do
  checkRequired c REQUIRED_KEYS
  readAll c READ_ORDER

end Config

/-! ### `SpreadMonitor` (`src/starknet_arbitrage/price_monitor.py`) -/

namespace SpreadMonitor

/-- The two raw-payload shapes `SpreadMonitor.run` distinguishes
(`price_monitor.py` lines 48-61): a payload with a top-level
`sourceName` and `lastPrice`, or one nesting `sourceName` and the close
price `c` under `info`. -/
inductive MonRaw where
  | flat (sourceName : String) (lastPrice : ℚ)
  | nested (sourceName : String) (c : ℚ)
deriving DecidableEq, Repr

/-- A ticker as the monitor consumes it: the raw payload it inspects plus
the bid and ask fields. -/
structure MonMsg where
  raw : MonRaw
  bid : ℚ
  ask : ℚ
deriving DecidableEq, Repr

/-- The per-venue entry stored in `last_prices`
(`price_monitor.py` lines 50-61). -/
structure PriceEntry where
  last_price : ℚ
  bid : ℚ
  ask : ℚ
deriving DecidableEq, Repr

/-- Venue name and `last_prices` entry extracted from a message
(`price_monitor.py` lines 48-61). -/
def entryOf (msg : MonMsg) : String × PriceEntry :=
  match msg.raw with
  | .flat name lastPrice => (name, ⟨lastPrice, msg.bid, msg.ask⟩)
  | .nested name c => (name, ⟨c, msg.bid, msg.ask⟩)

/-- `last_prices[ex_name] = {...}`: overwrite in place, or append a new
venue key. -/
def updateEntry (name : String) (e : PriceEntry) :
    List (String × PriceEntry) → List (String × PriceEntry)
  | [] => [(name, e)]
  | (k, v) :: rest =>
      if k = name then (name, e) :: rest
      else (k, v) :: updateEntry name e rest

/-- Monitor state: the `last_prices` dict as an association list in
insertion order. -/
structure State where
  last_prices : List (String × PriceEntry)
deriving DecidableEq, Repr

/-- Faults the monitor's `Decimal` divisions raise on a zero divisor
(`DivisionByZero`, or `InvalidOperation` for `0/0`; both trapped by
default and uncaught by `SpreadMonitor.run`). -/
inductive DecimalFault where
  | divisionByZero
deriving DecidableEq, Repr

/-- One row of the `for other_ex in other_exchanges` loop body
(`price_monitor.py` lines 74-118): `e1` is the updating venue's entry,
`e2` the other venue's.  The three relative spreads divide by
`e1.last_price`, `e1.ask` and `e2.ask` in that order (lines 80, 83, 86);
a zero divisor raises, which `Except` models. -/
def mkRow (now : ℕ) (exA exB : String) (e1 e2 : PriceEntry) :
    Except DecimalFault SpreadRow :=
  let spread_prices := |e1.last_price - e2.last_price|
  if e1.last_price = 0 then .error .divisionByZero
  else
    let spread_ex1 := e1.ask - e2.bid
    if e1.ask = 0 then .error .divisionByZero
    else
      let spread_ex2 := e2.ask - e1.bid
      if e2.ask = 0 then .error .divisionByZero
      else .ok
        { timestamp := now
          exA := exA
          exB := exB
          spread_prices := spread_prices
          spread_perc := spread_prices / e1.last_price
          spread_ex1 := spread_ex1
          spread_ex1_perc := spread_ex1 / e1.ask
          spread_ex2 := spread_ex2
          spread_ex2_perc := spread_ex2 / e2.ask
          a_last := e1.last_price
          a_bid := e1.bid
          a_ask := e1.ask
          b_last := e2.last_price
          b_bid := e2.bid
          b_ask := e2.ask }

/-- The `for other_ex in other_exchanges` loop accumulating `data`
(`price_monitor.py` lines 71-118): one row per key other than the
updating venue's, aborted by the first faulting pair — the exception
propagates before `executemany`, so a fault means *no* row of this
iteration is inserted. -/
def rowsFor (now : ℕ) (exName : String) (e1 : PriceEntry) :
    List (String × PriceEntry) → Except DecimalFault (List Effect)
  | [] => .ok []
  | kv :: rest =>
      if kv.1 = exName then rowsFor now exName e1 rest
      else
        match mkRow now exName kv.1 e1 kv.2 with
        | .error e => .error e
        | .ok r =>
            match rowsFor now exName e1 rest with
            | .error e => .error e
            | .ok rs => .ok (.insertRow r :: rs)

/-- One iteration of the `while True` body of `SpreadMonitor.run`
(`price_monitor.py` lines 45-124): store the incoming venue's entry, then
append one row per *other* key of `last_prices`
(`other_exchanges = set(last_prices.keys()) - set([ex_name])`; set
iteration order is unspecified, the rows are produced here in the dict's
insertion order).  `now` abstracts `datetime.datetime.now()`, taken once
per iteration.  A zero divisor in any pair's spreads faults the whole
iteration. -/
def step (now : ℕ) (s : State) (msg : MonMsg) :
    Except DecimalFault (State × List Effect) :=
  let (exName, entry) := entryOf msg
  let lp := updateEntry exName entry s.last_prices
  match rowsFor now exName entry lp with
  | .error e => .error e
  | .ok rows => .ok (⟨lp⟩, rows)

/-- Run the monitor over a list of timestamped messages: the rows
inserted by the iterations before a fault persist; a fault stops the
run (the task's exception is not caught). -/
def runLoop (s : State) : List (ℕ × MonMsg) → List Effect × Except DecimalFault State
  | [] => ([], .ok s)
  | (now, msg) :: rest =>
      match step now s msg with
      | .error e => ([], .error e)
      | .ok (s1, effs) =>
          let (moreEffs, r) := runLoop s1 rest
          (effs ++ moreEffs, r)

end SpreadMonitor

/-! ### Auxiliary definitions for the statements -/

/-- Whether an effect is an order placement (a `buy_market_order` or
`sell_market_order` call). -/
def Effect.isOrder : Effect → Bool
  | .buy _ _ _ => true
  | .sell _ _ _ => true
  | _ => false

/-- A `(ticker, venue)` element of the merged stream. -/
abbrev TV := Ticker × Venue

/-- The best-ask fold the run loop performs over a ticker sequence. -/
def foldAsk (init : Option TV) (l : List TV) : Option TV :=
  l.foldl (fun b tv => Arbitrage.updateBestAsk b tv.1 tv.2) init

/-- The best-bid fold the run loop performs over a ticker sequence. -/
def foldBid (init : Option TV) (l : List TV) : Option TV :=
  l.foldl (fun b tv => Arbitrage.updateBestBid b tv.1 tv.2) init

/-- Specification-side value: the minimum ask observed in a ticker
sequence (junk `0` on the empty list, which the statements exclude). -/
def minAskVal : List TV → ℚ
  | [] => 0
  | tv :: rest => rest.foldl (fun q tv2 => min q tv2.1.ask) tv.1.ask

/-- Specification-side value: the maximum bid observed in a ticker
sequence (junk `0` on the empty list, which the statements exclude). -/
def maxBidVal : List TV → ℚ
  | [] => 0
  | tv :: rest => rest.foldl (fun q tv2 => max q tv2.1.bid) tv.1.bid

/-- Whether an effect is a monitor row whose second venue is `b`. -/
def rowFor (b : String) : Effect → Bool
  | .insertRow r => r.exB = b
  | _ => false

/-- A wallet map giving every venue the balance `q` in every token. -/
def constWallets (q : ℚ) : Venue → String → Wallet :=
  fun _ n => ⟨⟨n, "", 0⟩, q⟩

/-! Concrete failing input for claim C3: two venues `E1` (holding best
ask, price 1) and `E2` (holding best bid, price 2) with pairwise distinct
balances — `E1` holds 7 base / 3 quote, `E2` holds 11 base / 13 quote. -/

/-- The traded symbol of the C3 failing input. -/
def c3Symbol : Symbol := ⟨⟨"ETH", "0xb", 18⟩, ⟨"USDC", "0xq", 6⟩⟩

/-- Parameters of the C3 failing input: threshold 0, trade cap 100,
minimum trade amount 0. -/
def c3Params : Arbitrage.Params := ⟨c3Symbol, 0, 100, 0⟩

/-- Wallet balances of the C3 failing input. -/
def c3Wallets : Venue → String → Wallet := fun ex n =>
  if ex = "E1" ∧ n = "ETH" then ⟨c3Symbol.base, 7⟩
  else if ex = "E1" ∧ n = "USDC" then ⟨c3Symbol.quote, 3⟩
  else if ex = "E2" ∧ n = "ETH" then ⟨c3Symbol.base, 11⟩
  else if ex = "E2" ∧ n = "USDC" then ⟨c3Symbol.quote, 13⟩
  else ⟨⟨n, "", 0⟩, 0⟩

/-- Loop state of the C3 failing input: best ask `(ask=1, amt=100)` on
`E1`, best bid `(bid=2, amt=100)` on `E2`. -/
def c3State : Arbitrage.State :=
  ⟨some (⟨0, 0, 1, 100⟩, "E1"), some (⟨2, 100, 50, 0⟩, "E2"), c3Wallets⟩

/-! Concrete inputs for the coordinator scenario of spec §8: venue `V1`
reports ask 100 for 50, venue `V2` reports bid 106 for 50, threshold
0.02, trade cap 50, minimum 1, ample balances. -/

/-- `V1`'s quote in the §8 scenario. -/
def specTickerV1 : Ticker := ⟨99, 1, 100, 50⟩

/-- `V2`'s quote in the §8 scenario. -/
def specTickerV2 : Ticker := ⟨106, 50, 107, 1⟩

/-- Coordinator parameters of the §8 scenario. -/
def c6Params : Coordinator.Params := ⟨c3Symbol, 2 / 100, 50, 1⟩

/-- Idle coordinator state holding `V1`'s quote as both extrema, about to
receive `V2`'s quote. -/
def c6State : Coordinator.State :=
  ⟨some (specTickerV1, "V1"), some (specTickerV1, "V1"), constWallets 10000, []⟩

/-- The same state while both legs of a previous opportunity are
outstanding. -/
def c1PendState : Coordinator.State :=
  ⟨some (specTickerV1, "V1"), some (specTickerV1, "V1"), constWallets 10000,
   ["V1", "V2"]⟩

/-! ## Theorems -/

/-- Claim C2, counterexample.  The claim asserts that for a bid ticker
with `bid.bid ≤ 0` the simple spread strategy reports not-profitable
without raising a division fault.  The source has no such guard: with
`bid.bid = -1 ≤ 0` and `ask.ask = 1` the evaluation returns
`(-1 - 1) / -1 = 2 ≥ 0`, i.e. *profitable*, and with `bid.bid = 0` the
`Decimal` quotient raises `DivisionByZero`. -/
theorem c2_spread_guard_counterexample :
    ((Ticker.mk (-1) 1 0 0).bid ≤ 0 ∧
      SimpleSpreadStrategy.profitable_trade 0 ⟨0, 0, 1, 1⟩ ⟨-1, 1, 0, 0⟩ =
        .ok (true, 2)) ∧
    ((Ticker.mk 0 1 0 0).bid ≤ 0 ∧
      SimpleSpreadStrategy.profitable_trade 0 ⟨0, 0, 1, 1⟩ ⟨0, 1, 0, 0⟩ =
        .error .divisionByZero) := by
  refine ⟨⟨by norm_num, ?_⟩, ⟨le_refl _, ?_⟩⟩
  · simp [SimpleSpreadStrategy.profitable_trade, SimpleSpreadStrategy.spreadCalc]
    norm_num
  · simp [SimpleSpreadStrategy.profitable_trade, SimpleSpreadStrategy.spreadCalc]

/-- Claim C2, amended: for every ask and bid ticker, whenever
`bid.bid ≠ 0` the evaluation returns `spread = (bid.bid - ask.ask) / bid.bid`
and reports profitable iff `spread ≥ threshold` (a negative bid is fed to
the same formula and may well report profitable); when `bid.bid = 0` the
evaluation raises a division fault — there is no not-profitable guard. -/
theorem c2_spread_formula (threshold : ℚ) (a b : Ticker) :
    (b.bid ≠ 0 →
      SimpleSpreadStrategy.profitable_trade threshold a b =
        .ok (decide (threshold ≤ (b.bid - a.ask) / b.bid),
             (b.bid - a.ask) / b.bid)) ∧
    (b.bid = 0 →
      SimpleSpreadStrategy.profitable_trade threshold a b =
        .error .divisionByZero) := by
  constructor <;> intro h <;>
    simp [SimpleSpreadStrategy.profitable_trade, SimpleSpreadStrategy.spreadCalc, h]

/-- Witness for `c2_spread_formula`: ask 100, bid 105, threshold 0 gives
the profitable pair with spread `(105 - 100) / 105 = 1/21`. -/
theorem c2_spread_formula_witness :
    SimpleSpreadStrategy.profitable_trade 0 ⟨0, 0, 100, 1⟩ ⟨105, 1, 0, 0⟩ =
      .ok (true, 1 / 21) := by
  have h := (c2_spread_formula 0 ⟨0, 0, 100, 1⟩ ⟨105, 1, 0, 0⟩).1 (by norm_num)
  rw [h]
  norm_num

/-- Claim C5: `SimpleAmountStrategy.calculate_amount` yields
`min(trade cap, ask.ask_amount, bid.bid_amount, bid-side wallet amount,
ask-side wallet amount × ask.ask)`, returns `none` exactly when that
value is strictly below the configured minimum (so a value equal to the
minimum is returned, i.e. leads to a trade), and the concrete instance
tradeCap 10, askAmount 8, bidAmount 20, bidWallet 5, askWallet 1,
askPrice 100 yields `some 5`. -/
theorem c5_amount_composition (trade_amount min_amount : ℚ) (ask bid : Ticker)
    (wa wb : Wallet) :
    (SimpleAmountStrategy.calculate_amount trade_amount min_amount ask bid wa wb =
      if min trade_amount (min ask.ask_amount (min bid.bid_amount
           (min wb.amount (wa.amount * ask.ask)))) < min_amount then none
      else some (min trade_amount (min ask.ask_amount (min bid.bid_amount
           (min wb.amount (wa.amount * ask.ask)))))) ∧
    (SimpleAmountStrategy.calculate_amount trade_amount min_amount ask bid wa wb
        = none ↔
      min trade_amount (min ask.ask_amount (min bid.bid_amount
           (min wb.amount (wa.amount * ask.ask)))) < min_amount) ∧
    SimpleAmountStrategy.calculate_amount 10 1 ⟨0, 0, 100, 8⟩ ⟨0, 20, 0, 0⟩
      ⟨⟨"QUOTE", "", 0⟩, 1⟩ ⟨⟨"BASE", "", 0⟩, 5⟩ = some 5 := by
  have hassoc :
      min (min (min (min trade_amount ask.ask_amount) bid.bid_amount)
            wb.amount) (wa.amount * ask.ask) =
        min trade_amount (min ask.ask_amount (min bid.bid_amount
          (min wb.amount (wa.amount * ask.ask)))) := by
    simp [min_assoc]
  refine ⟨?_, ?_, ?_⟩
  · simp only [SimpleAmountStrategy.calculate_amount]
    rw [hassoc]
  · simp only [SimpleAmountStrategy.calculate_amount]
    rw [hassoc]
    split <;> simp_all
  · simp only [SimpleAmountStrategy.calculate_amount]
    norm_num [min_def]

/-- A ticker iteration of the `starknet_arbitrage` loop updates the two
extremum fields by the two `if` comparisons and nothing else. -/
theorem Arbitrage.step_ticker_state (p : Arbitrage.Params) (s : Arbitrage.State)
    (t : Ticker) (v : Venue) :
    (Arbitrage.step p s (.ticker t) v).1 =
      { s with bestAsk := Arbitrage.updateBestAsk s.bestAsk t v,
               bestBid := Arbitrage.updateBestBid s.bestBid t v } := by
  simp only [Arbitrage.step]
  repeat' split
  all_goals rfl

/-- Claim C3, code evaluation at the failing input.  With `E1` holding
best ask (price 1) and `E2` best bid (price 2), wallet balances
`E1`: 7 base / 3 quote and `E2`: 11 base / 13 quote, the loop hands the
amount calculation `E1`'s *base* balance (7, multiplied by the ask price)
and `E2`'s *quote* balance (13) and issues both legs with amount
`min(100, 100, 100, 13, 7·1) = 7`; the balances the claim (and the
`NOTE` comment in `_calculate_amount`) prescribe — the bid venue `E2`'s
base balance 11 and the ask venue `E1`'s quote balance 3 — would instead
give `min(100, 100, 100, 11, 3·1) = 3`. -/
theorem c3_wallet_wiring_eval :
    (Arbitrage.step c3Params c3State (.ticker ⟨0, 0, 50, 1⟩) "E1").2 =
      [.evalSpread (1 / 2),
       .buy "E1" 7 ⟨0, 0, 1, 100⟩, .sell "E2" 7 ⟨2, 100, 50, 0⟩] ∧
    Arbitrage.calculateAmount c3Params ⟨0, 0, 1, 100⟩ ⟨2, 100, 50, 0⟩
      (c3Wallets "E1" "USDC").amount (c3Wallets "E2" "ETH").amount = 3 := by
  constructor
  · simp +decide [Arbitrage.step, Arbitrage.updateBestAsk, Arbitrage.updateBestBid,
      Arbitrage.calculateSpread, Arbitrage.calculateAmount,
      c3State, c3Params, c3Wallets, c3Symbol, min_def]
    norm_num
  · simp +decide [Arbitrage.calculateAmount, c3Params, c3Wallets, c3Symbol, min_def]

/-- Claim C7: if after the extremum updates the venue holding the best
ask equals the venue holding the best bid, the iteration performs no
spread evaluation and issues no orders — its effect list is empty —
regardless of the numeric spread. -/
theorem c7_self_arbitrage_skip (p : Arbitrage.Params) (s : Arbitrage.State)
    (t : Ticker) (v : Venue) :
    (∃ ta tb vv,
        ((Arbitrage.step p s (.ticker t) v).1).bestAsk = some (ta, vv) ∧
        ((Arbitrage.step p s (.ticker t) v).1).bestBid = some (tb, vv)) →
    (Arbitrage.step p s (.ticker t) v).2 = [] := by
  rintro ⟨ta, tb, vv, h1, h2⟩
  rw [Arbitrage.step_ticker_state] at h1 h2
  simp only at h1 h2
  simp [Arbitrage.step, h1, h2]

/-- Witness for `c7_self_arbitrage_skip`: a single venue reporting a
crossed book (bid 10 above ask 1) still produces no effects. -/
theorem c7_self_arbitrage_skip_witness :
    (Arbitrage.step c3Params
      ⟨none, none, constWallets 100⟩ (.ticker ⟨10, 5, 1, 5⟩) "E1").2 = [] := by
  refine c7_self_arbitrage_skip c3Params ⟨none, none, constWallets 100⟩ ⟨10, 5, 1, 5⟩ "E1"
    ⟨⟨10, 5, 1, 5⟩, ⟨10, 5, 1, 5⟩, "E1", ?_, ?_⟩ <;>
    · rw [Arbitrage.step_ticker_state]
      rfl

/-- The ask comparison always yields a holder (the incoming ticker
replaces the sentinel). -/
theorem Arbitrage.updateBestAsk_isSome (b : Option TV) (t : Ticker) (v : Venue) :
    ∃ c, Arbitrage.updateBestAsk b t v = some c := by
  unfold Arbitrage.updateBestAsk
  rcases b with _ | ⟨bt, bv⟩
  · exact ⟨(t, v), rfl⟩
  · dsimp only
    split
    · exact ⟨(t, v), rfl⟩
    · exact ⟨(bt, bv), rfl⟩

/-- The bid comparison always yields a holder. -/
theorem Arbitrage.updateBestBid_isSome (b : Option TV) (t : Ticker) (v : Venue) :
    ∃ c, Arbitrage.updateBestBid b t v = some c := by
  unfold Arbitrage.updateBestBid
  rcases b with _ | ⟨bt, bv⟩
  · exact ⟨(t, v), rfl⟩
  · dsimp only
    split
    · exact ⟨(t, v), rfl⟩
    · exact ⟨(bt, bv), rfl⟩

/-- With both consulted wallet balances zero, the `_calculate_amount`
result is at most zero. -/
theorem Arbitrage.calculateAmount_zero_wallets (p : Arbitrage.Params)
    (a b : Ticker) : Arbitrage.calculateAmount p a b 0 0 ≤ 0 := by
  simp only [Arbitrage.calculateAmount, zero_mul]
  exact le_trans (min_le_left _ _) (min_le_right _ _)

/-- Ticker iterations whose consulted wallet balances are zero issue no
orders (provided the minimum trade amount is non-negative). -/
theorem Arbitrage.step_ticker_no_order (p : Arbitrage.Params)
    (s : Arbitrage.State) (t : Ticker) (v : Venue)
    (hmin : 0 ≤ p.min_trade_amount)
    (hwa : ∀ ta va, Arbitrage.updateBestAsk s.bestAsk t v = some (ta, va) →
        (s.wallets va p.symbol.base.name).amount = 0)
    (hwb : ∀ tb vb, Arbitrage.updateBestBid s.bestBid t v = some (tb, vb) →
        (s.wallets vb p.symbol.quote.name).amount = 0) :
    ∀ e ∈ (Arbitrage.step p s (.ticker t) v).2, e.isOrder = false := by
  obtain ⟨⟨ta, va⟩, hA⟩ := Arbitrage.updateBestAsk_isSome s.bestAsk t v
  obtain ⟨⟨tb, vb⟩, hB⟩ := Arbitrage.updateBestBid_isSome s.bestBid t v
  have hza := hwa ta va hA
  have hzb := hwb tb vb hB
  simp only [Arbitrage.step, hA, hB]
  by_cases hv : vb = va
  · simp [hv]
  · rw [if_neg hv]
    by_cases hsp : p.threshold ≤ Arbitrage.calculateSpread ta.ask tb.bid
    · rw [if_pos hsp]
      have hle : Arbitrage.calculateAmount p ta tb
          (s.wallets va p.symbol.base.name).amount
          (s.wallets vb p.symbol.quote.name).amount ≤ p.min_trade_amount := by
        rw [hza, hzb]
        exact le_trans (Arbitrage.calculateAmount_zero_wallets p ta tb) hmin
      rw [if_pos hle]
      intro e he
      rw [List.mem_singleton] at he
      subst he
      rfl
    · rw [if_neg hsp]
      intro e he
      rw [List.mem_singleton] at he
      subst he
      rfl

/-- Effects of a run decompose iteration by iteration. -/
theorem Arbitrage.arbLoop_cons (p : Arbitrage.Params) (s : Arbitrage.State)
    (e : Arbitrage.Event) (v : Venue) (rest : List (Arbitrage.Event × Venue)) :
    Arbitrage.runLoop p s ((e, v) :: rest) =
      ((Arbitrage.runLoop p (Arbitrage.step p s e v).1 rest).1,
       (Arbitrage.step p s e v).2 ++
         (Arbitrage.runLoop p (Arbitrage.step p s e v).1 rest).2) := by
  simp [Arbitrage.runLoop]

/-- On a ticker-only stream, a run whose wallet balances are all zero
issues no orders at any iteration. -/
theorem Arbitrage.runLoop_tickers_no_order (p : Arbitrage.Params)
    (hmin : 0 ≤ p.min_trade_amount) :
    ∀ (l : List TV) (s : Arbitrage.State),
      (∀ ex n, (s.wallets ex n).amount = 0) →
      ∀ e ∈ (Arbitrage.runLoop p s
              (l.map fun tv => (.ticker tv.1, tv.2))).2, e.isOrder = false := by
  intro l
  induction l with
  | nil => intro s _ e he; simp [Arbitrage.runLoop] at he
  | cons tv rest ih =>
      intro s hz e he
      rw [List.map_cons, Arbitrage.arbLoop_cons] at he
      rcases List.mem_append.mp he with h | h
      · exact Arbitrage.step_ticker_no_order p s tv.1 tv.2 hmin
          (fun ta va _ => hz va p.symbol.base.name)
          (fun tb vb _ => hz vb p.symbol.quote.name) e h
      · refine ih (Arbitrage.step p s (.ticker tv.1) tv.2).1 ?_ e h
        intro ex n
        rw [Arbitrage.step_ticker_state]
        exact hz ex n

/-- Claim C9: every balance starts as `Wallet.empty` with amount 0; a
ticker iteration whose consulted balances (the post-update ask venue's
base-token balance and the post-update bid venue's quote-token balance)
are zero issues no buy or sell, provided the configured minimum trade
amount is non-negative; hence a run that has received no Wallet event —
a ticker-only stream from the initial state — never issues an order. -/
theorem c9_no_trade_before_wallet_events (p : Arbitrage.Params) :
    (∀ ex n, ((Arbitrage.initState p).wallets ex n).amount = 0) ∧
    (0 ≤ p.min_trade_amount →
      ∀ (s : Arbitrage.State) (t : Ticker) (v : Venue) ta va tb vb,
        ((Arbitrage.step p s (.ticker t) v).1).bestAsk = some (ta, va) →
        ((Arbitrage.step p s (.ticker t) v).1).bestBid = some (tb, vb) →
        (s.wallets va p.symbol.base.name).amount = 0 →
        (s.wallets vb p.symbol.quote.name).amount = 0 →
        ∀ e ∈ (Arbitrage.step p s (.ticker t) v).2, e.isOrder = false) ∧
    (0 ≤ p.min_trade_amount → ∀ (l : List TV),
      ∀ e ∈ (Arbitrage.runLoop p (Arbitrage.initState p)
              (l.map fun tv => (.ticker tv.1, tv.2))).2, e.isOrder = false) := by
  refine ⟨?_, ?_, ?_⟩
  · intro ex n
    show (if n = p.symbol.base.name then Wallet.empty p.symbol.base
          else if n = p.symbol.quote.name then Wallet.empty p.symbol.quote
          else Wallet.empty ⟨n, "", 0⟩).amount = 0
    split
    · rfl
    · split <;> rfl
  · intro hmin s t v ta va tb vb hA hB hza hzb
    rw [Arbitrage.step_ticker_state] at hA hB
    simp only at hA hB
    refine Arbitrage.step_ticker_no_order p s t v hmin ?_ ?_
    · intro ta2 va2 h2
      rw [hA] at h2
      cases h2
      exact hza
    · intro tb2 vb2 h2
      rw [hB] at h2
      cases h2
      exact hzb
  · intro hmin l
    refine Arbitrage.runLoop_tickers_no_order p hmin l (Arbitrage.initState p) ?_
    intro ex n
    show (if n = p.symbol.base.name then Wallet.empty p.symbol.base
          else if n = p.symbol.quote.name then Wallet.empty p.symbol.quote
          else Wallet.empty ⟨n, "", 0⟩).amount = 0
    split
    · rfl
    · split <;> rfl

/-- Witness for `c9_no_trade_before_wallet_events`: a profitable
two-venue ticker pair (ask 1 on `E1`, bid 2 on `E2`) from the initial
state yields no order effect. -/
theorem c9_no_trade_before_wallet_events_witness :
    ((Arbitrage.runLoop c3Params (Arbitrage.initState c3Params)
        ([(⟨1, 5, 1, 5⟩, "E1"), (⟨2, 9, 3, 9⟩, "E2")].map
          fun tv => (.ticker tv.1, tv.2))).2.filter Effect.isOrder) = [] := by
  rw [List.filter_eq_nil_iff]
  intro e he
  have h := (c9_no_trade_before_wallet_events c3Params).2.2 (le_refl 0)
    [(⟨1, 5, 1, 5⟩, "E1"), (⟨2, 9, 3, 9⟩, "E2")] e he
  simp [h]

/-- A ticker iteration of the coordinator leaves its best-ask field as
the ask comparison dictates. -/
theorem Coordinator.step_ticker_bestAsk (p : Coordinator.Params)
    (s : Coordinator.State) (t : Ticker) (v : Venue) :
    ((Coordinator.step p s (.ticker t) v).1).bestAsk =
      Arbitrage.updateBestAsk s.bestAsk t v := by
  simp only [Coordinator.step]
  repeat' split
  all_goals rfl

/-- A ticker iteration of the coordinator leaves its best-bid field as
the bid comparison dictates. -/
theorem Coordinator.step_ticker_bestBid (p : Coordinator.Params)
    (s : Coordinator.State) (t : Ticker) (v : Venue) :
    ((Coordinator.step p s (.ticker t) v).1).bestBid =
      Arbitrage.updateBestBid s.bestBid t v := by
  simp only [Coordinator.step]
  repeat' split
  all_goals rfl

/-- Coordinator effects decompose iteration by iteration. -/
theorem Coordinator.coordLoop_cons (p : Coordinator.Params)
    (s : Coordinator.State) (e : Coordinator.Event) (v : Venue)
    (rest : List (Coordinator.Event × Venue)) :
    Coordinator.runLoop p s ((e, v) :: rest) =
      ((Coordinator.runLoop p (Coordinator.step p s e v).1 rest).1,
       (Coordinator.step p s e v).2 ++
         (Coordinator.runLoop p (Coordinator.step p s e v).1 rest).2) := by
  simp [Coordinator.runLoop]

/-- A pending coordinator suppresses a ticker entirely: no effects, and
the outstanding set is untouched. -/
theorem Coordinator.step_ticker_pending (p : Coordinator.Params)
    (s : Coordinator.State) (t : Ticker) (v : Venue)
    (hw : s.waiting ≠ []) :
    (Coordinator.step p s (.ticker t) v).2 = [] ∧
      ((Coordinator.step p s (.ticker t) v).1).waiting = s.waiting := by
  obtain ⟨⟨ta, va⟩, hA⟩ := Arbitrage.updateBestAsk_isSome s.bestAsk t v
  obtain ⟨⟨tb, vb⟩, hB⟩ := Arbitrage.updateBestBid_isSome s.bestBid t v
  simp only [Coordinator.step, hA, hB]
  by_cases hv : va = vb
  · rw [if_pos hv]
    exact ⟨rfl, rfl⟩
  · rw [if_neg hv, if_pos hw]
    exact ⟨rfl, rfl⟩

/-- Claim C1 (the coordinator itself is modelled from the spec):
the pending-set state machine of the run loop.
1. Whenever a ticker iteration issues a buy (on the ask venue), the
   post-state's outstanding set is exactly the ask venue and the bid
   venue of the matching sell, produced in the same atomic step as the
   two requests — so tickers arriving before either leg completes are
   suppressed.
2. An incoming Order event for venue `V` removes `V` from the
   outstanding set and does nothing else.
3. While the set is non-empty, a ticker iteration produces no effects
   (no evaluation, no orders) and leaves the set untouched.
4. When the venues differ, a ticker iteration evaluates the spread iff
   the outstanding set is empty (IDLE) — evaluation is re-enabled
   exactly when the set becomes empty.
5. Hence over any ticker-only stream from a pending state, no further
   effects — in particular no second pair of legs — are produced, no
   matter how many profitable tickers arrive. -/
theorem c1_pending_set_machine :
    (∀ (p : Coordinator.Params) (s : Coordinator.State) (t : Ticker)
        (v va : Venue) (amt : ℚ) (ctx : Ticker),
        .buy va amt ctx ∈ (Coordinator.step p s (.ticker t) v).2 →
        ∃ vb amt2 ctx2,
          ((Coordinator.step p s (.ticker t) v).1).waiting = [va, vb] ∧
          .sell vb amt2 ctx2 ∈ (Coordinator.step p s (.ticker t) v).2) ∧
    (∀ (p : Coordinator.Params) (s : Coordinator.State) (o : Order) (v : Venue),
        Coordinator.step p s (.order o) v =
          ({ s with waiting := s.waiting.erase v }, [])) ∧
    (∀ (p : Coordinator.Params) (s : Coordinator.State) (t : Ticker) (v : Venue),
        s.waiting ≠ [] →
        (Coordinator.step p s (.ticker t) v).2 = [] ∧
        ((Coordinator.step p s (.ticker t) v).1).waiting = s.waiting) ∧
    (∀ (p : Coordinator.Params) (s : Coordinator.State) (t : Ticker)
        (v : Venue) (ta : Ticker) (va : Venue) (tb : Ticker) (vb : Venue),
        ((Coordinator.step p s (.ticker t) v).1).bestAsk = some (ta, va) →
        ((Coordinator.step p s (.ticker t) v).1).bestBid = some (tb, vb) →
        va ≠ vb →
        ((∃ q, .evalSpread q ∈ (Coordinator.step p s (.ticker t) v).2) ↔
          s.waiting = [])) ∧
    (∀ (p : Coordinator.Params) (s : Coordinator.State) (l : List TV),
        s.waiting ≠ [] →
        (Coordinator.runLoop p s
          (l.map fun tv => (.ticker tv.1, tv.2))).2 = []) := by
  have hsell : ∀ (p : Coordinator.Params) (s : Coordinator.State) (t : Ticker)
      (v va : Venue) (amt : ℚ) (ctx : Ticker),
      .buy va amt ctx ∈ (Coordinator.step p s (.ticker t) v).2 →
      ∃ vb amt2 ctx2,
        ((Coordinator.step p s (.ticker t) v).1).waiting = [va, vb] ∧
        .sell vb amt2 ctx2 ∈ (Coordinator.step p s (.ticker t) v).2 := by
    intro p s t v va amt ctx hbuy
    obtain ⟨⟨ta, va0⟩, hA⟩ := Arbitrage.updateBestAsk_isSome s.bestAsk t v
    obtain ⟨⟨tb, vb0⟩, hB⟩ := Arbitrage.updateBestBid_isSome s.bestBid t v
    simp only [Coordinator.step, hA, hB] at hbuy ⊢
    by_cases hv : va0 = vb0
    · rw [if_pos hv] at hbuy
      simp at hbuy
    · rw [if_neg hv] at hbuy ⊢
      by_cases hw : s.waiting = []
      · rw [if_neg (fun hne => hne hw)] at hbuy ⊢
        by_cases hP : (Coordinator.specSpreadEval p.threshold ta tb).1 = true
        · rw [if_pos hP] at hbuy ⊢
          cases hamt : SimpleAmountStrategy.calculate_amount
              p.max_amount_trade p.min_amount_trade ta tb
              (s.wallets va0 p.symbol.quote.name)
              (s.wallets vb0 p.symbol.base.name) with
          | none =>
              rw [hamt] at hbuy
              simp at hbuy
          | some amount =>
              rw [hamt] at hbuy
              dsimp only at hbuy ⊢
              simp only [List.mem_cons, List.mem_singleton] at hbuy
              rcases hbuy with h | h | h
              · exact absurd h (by simp)
              · cases h
                exact ⟨vb0, amt, tb, rfl, by simp⟩
              · rcases h with h | h
                · cases h
                · cases h
        · rw [if_neg hP] at hbuy
          simp at hbuy
      · rw [if_pos hw] at hbuy
        simp at hbuy
  refine ⟨hsell, fun p s o v => rfl, ?_, ?_, ?_⟩
  · exact fun p s t v hw => Coordinator.step_ticker_pending p s t v hw
  · intro p s t v ta va tb vb hA hB hne
    rw [Coordinator.step_ticker_bestAsk] at hA
    rw [Coordinator.step_ticker_bestBid] at hB
    constructor
    · intro ⟨q, hq⟩
      by_contra hw
      rcases Coordinator.step_ticker_pending p s t v hw with ⟨heff, _⟩
      rw [heff] at hq
      simp at hq
    · intro hw
      simp only [Coordinator.step, hA, hB]
      rw [if_neg hne, if_neg (fun h2 => h2 hw)]
      by_cases hP : (Coordinator.specSpreadEval p.threshold ta tb).1 = true
      · rw [if_pos hP]
        cases hamt : SimpleAmountStrategy.calculate_amount
            p.max_amount_trade p.min_amount_trade ta tb
            (s.wallets va p.symbol.quote.name)
            (s.wallets vb p.symbol.base.name) with
        | none => exact ⟨(Coordinator.specSpreadEval p.threshold ta tb).2, by simp⟩
        | some amount =>
            exact ⟨(Coordinator.specSpreadEval p.threshold ta tb).2, by simp⟩
      · rw [if_neg hP]
        exact ⟨(Coordinator.specSpreadEval p.threshold ta tb).2, by simp⟩
  · intro p s l
    induction l generalizing s with
    | nil => intro _; simp [Coordinator.runLoop]
    | cons tv rest ih =>
        intro hw
        rw [List.map_cons, Coordinator.coordLoop_cons]
        rcases Coordinator.step_ticker_pending p s tv.1 tv.2 hw with ⟨heff, hwait⟩
        rw [heff]
        simp only [List.nil_append]
        exact ih _ (by rw [hwait]; exact hw)

/-- Witness for `c1_pending_set_machine`: an Order fill ack from `V1`
while `{V1, V2}` is outstanding shrinks the set to `{V2}`, and a
profitable ticker arriving while the set is non-empty produces no
effects at all. -/
theorem c1_pending_set_machine_witness :
    ((Coordinator.step c6Params c1PendState
        (.order ⟨c3Symbol, 50, 100, "buy"⟩) "V1").1).waiting = ["V2"] ∧
    (Coordinator.step c6Params c1PendState (.ticker specTickerV2) "V2").2 = [] := by
  constructor
  · rw [c1_pending_set_machine.2.1 c6Params c1PendState ⟨c3Symbol, 50, 100, "buy"⟩ "V1"]
    rfl
  · exact (c1_pending_set_machine.2.2.1 c6Params c1PendState specTickerV2 "V2"
      (by simp [c1PendState])).1

/-- Claim C6 (coordinator modelled from the spec): with no legs
outstanding, the venues distinct after the extremum update, a spread of
at least the threshold (on a positive bid, as the strategy's guard
requires), and an amount that passes the minimum-trade gate, the
iteration issues exactly two orders — a market buy on the venue holding
the best ask and a market sell on the venue holding the best bid, both
for the same amount, each with the triggering quote as its context
argument. -/
theorem c6_issue_both_legs (p : Coordinator.Params) (s : Coordinator.State)
    (t : Ticker) (v : Venue) (ta : Ticker) (va : Venue) (tb : Ticker)
    (vb : Venue) (a : ℚ) :
    s.waiting = [] →
    ((Coordinator.step p s (.ticker t) v).1).bestAsk = some (ta, va) →
    ((Coordinator.step p s (.ticker t) v).1).bestBid = some (tb, vb) →
    va ≠ vb →
    0 < tb.bid →
    p.threshold ≤ (tb.bid - ta.ask) / tb.bid →
    SimpleAmountStrategy.calculate_amount p.max_amount_trade p.min_amount_trade
      ta tb (s.wallets va p.symbol.quote.name)
      (s.wallets vb p.symbol.base.name) = some a →
    (Coordinator.step p s (.ticker t) v).2 =
      [.evalSpread ((tb.bid - ta.ask) / tb.bid),
       .buy va a ta, .sell vb a tb] := by
  intro hw hA hB hne hbid hth hamt
  rw [Coordinator.step_ticker_bestAsk] at hA
  rw [Coordinator.step_ticker_bestBid] at hB
  have hspeval : Coordinator.specSpreadEval p.threshold ta tb =
      (true, (tb.bid - ta.ask) / tb.bid) := by
    unfold Coordinator.specSpreadEval
    rw [if_neg (not_le.mpr hbid)]
    simp [decide_eq_true_eq, hth]
  have hP : (Coordinator.specSpreadEval p.threshold ta tb).1 = true := by
    rw [hspeval]
  simp only [Coordinator.step, hA, hB]
  rw [if_neg hne, if_neg (fun h2 => h2 hw), if_pos hP, hamt]
  simp [hspeval]

/-- Witness for `c6_issue_both_legs`: the spec §8 scenario — `V2`'s
quote (bid 106 for 50) arrives while `V1` holds the best ask (100 for
50); with threshold 0.02, cap 50 and minimum 1, the iteration issues
`buy("V1", 50)` and `sell("V2", 50)` with the two triggering quotes. -/
theorem c6_issue_both_legs_witness :
    (Coordinator.step c6Params c6State (.ticker specTickerV2) "V2").2 =
      [.evalSpread (3 / 53),
       .buy "V1" 50 specTickerV1, .sell "V2" 50 specTickerV2] := by
  have h := c6_issue_both_legs c6Params c6State specTickerV2 "V2"
    specTickerV1 "V1" specTickerV2 "V2" 50
    rfl
    (by rw [Coordinator.step_ticker_bestAsk]
        norm_num [c6State, Arbitrage.updateBestAsk, specTickerV1, specTickerV2])
    (by rw [Coordinator.step_ticker_bestBid]
        norm_num [c6State, Arbitrage.updateBestBid, specTickerV1, specTickerV2])
    (by decide)
    (by norm_num [specTickerV2])
    (by norm_num [specTickerV1, specTickerV2, c6Params])
    (by norm_num [SimpleAmountStrategy.calculate_amount, c6Params, c6State,
          constWallets, specTickerV1, specTickerV2, min_def])
  rw [h]
  norm_num [specTickerV1, specTickerV2]

/-- Extending a non-empty ticker sequence extends its minimum ask. -/
theorem minAskVal_concat (l : List TV) (hl : l ≠ []) (y : TV) :
    minAskVal (l ++ [y]) = min (minAskVal l) y.1.ask := by
  rcases l with _ | ⟨x, xs⟩
  · exact absurd rfl hl
  · simp [minAskVal, List.foldl_append]

/-- Extending a non-empty ticker sequence extends its maximum bid. -/
theorem maxBidVal_concat (l : List TV) (hl : l ≠ []) (y : TV) :
    maxBidVal (l ++ [y]) = max (maxBidVal l) y.1.bid := by
  rcases l with _ | ⟨x, xs⟩
  · exact absurd rfl hl
  · simp [maxBidVal, List.foldl_append]

/-- The ask fold consumes an appended event last. -/
theorem foldAsk_concat (init : Option TV) (l : List TV) (y : TV) :
    foldAsk init (l ++ [y]) =
      Arbitrage.updateBestAsk (foldAsk init l) y.1 y.2 := by
  simp [foldAsk, List.foldl_append]

/-- The bid fold consumes an appended event last. -/
theorem foldBid_concat (init : Option TV) (l : List TV) (y : TV) :
    foldBid init (l ++ [y]) =
      Arbitrage.updateBestBid (foldBid init l) y.1 y.2 := by
  simp [foldBid, List.foldl_append]

/-- Last-write-wins characterization of the ask tracking: over any
non-empty ticker sequence, the fold of the run loop's ask comparison
lands on the most recent event attaining the minimum ask. -/
theorem foldAsk_char : ∀ l : List TV, l ≠ [] →
    foldAsk none l = (l.filter fun tv => tv.1.ask = minAskVal l).getLast? ∧
    ∃ c, foldAsk none l = some c ∧ c.1.ask = minAskVal l := by
  intro l
  induction l using List.reverseRecOn with
  | nil => intro h; exact absurd rfl h
  | append_singleton l y ih =>
    intro _
    obtain ⟨y1, y2⟩ := y
    rcases eq_or_ne l [] with rfl | hl
    · constructor
      · simp [foldAsk, Arbitrage.updateBestAsk, minAskVal]
      · exact ⟨(y1, y2), by simp [foldAsk, Arbitrage.updateBestAsk],
          by simp [minAskVal]⟩
    · obtain ⟨hfold, ⟨c1, c2⟩, hc, hcask⟩ := ih hl
      simp only at hcask
      rw [foldAsk_concat, minAskVal_concat l hl (y1, y2), hc]
      by_cases hcmp : y1.ask ≤ minAskVal l
      · have hupd : Arbitrage.updateBestAsk (some (c1, c2)) y1 y2 =
            some (y1, y2) := by
          simp [Arbitrage.updateBestAsk, hcask, hcmp]
        have hm : min (minAskVal l) y1.ask = y1.ask := min_eq_right hcmp
        rw [hupd, hm]
        constructor
        · rw [List.filter_append]
          have hy : (([(y1, y2)] : List TV).filter
              fun tv => tv.1.ask = y1.ask) = [(y1, y2)] := by simp
          rw [hy, List.getLast?_concat]
        · exact ⟨(y1, y2), rfl, rfl⟩
      · have hupd : Arbitrage.updateBestAsk (some (c1, c2)) y1 y2 =
            some (c1, c2) := by
          simp [Arbitrage.updateBestAsk, hcask, hcmp]
        have hm : min (minAskVal l) y1.ask = minAskVal l :=
          min_eq_left (le_of_lt (lt_of_not_le hcmp))
        rw [hupd, hm]
        constructor
        · rw [List.filter_append]
          have hy : (([(y1, y2)] : List TV).filter
              fun tv => tv.1.ask = minAskVal l) = [] := by
            have hne : y1.ask ≠ minAskVal l := fun h => hcmp (le_of_eq h)
            simp [hne]
          rw [hy, List.append_nil, ← hfold, hc]
        · exact ⟨(c1, c2), rfl, hcask⟩

/-- Last-write-wins characterization of the bid tracking: over any
non-empty ticker sequence, the fold of the run loop's bid comparison
lands on the most recent event attaining the maximum bid. -/
theorem foldBid_char : ∀ l : List TV, l ≠ [] →
    foldBid none l = (l.filter fun tv => tv.1.bid = maxBidVal l).getLast? ∧
    ∃ c, foldBid none l = some c ∧ c.1.bid = maxBidVal l := by
  intro l
  induction l using List.reverseRecOn with
  | nil => intro h; exact absurd rfl h
  | append_singleton l y ih =>
    intro _
    obtain ⟨y1, y2⟩ := y
    rcases eq_or_ne l [] with rfl | hl
    · constructor
      · simp [foldBid, Arbitrage.updateBestBid, maxBidVal]
      · exact ⟨(y1, y2), by simp [foldBid, Arbitrage.updateBestBid],
          by simp [maxBidVal]⟩
    · obtain ⟨hfold, ⟨c1, c2⟩, hc, hcbid⟩ := ih hl
      simp only at hcbid
      rw [foldBid_concat, maxBidVal_concat l hl (y1, y2), hc]
      by_cases hcmp : maxBidVal l ≤ y1.bid
      · have hupd : Arbitrage.updateBestBid (some (c1, c2)) y1 y2 =
            some (y1, y2) := by
          simp [Arbitrage.updateBestBid, hcbid, hcmp]
        have hm : max (maxBidVal l) y1.bid = y1.bid := max_eq_right hcmp
        rw [hupd, hm]
        constructor
        · rw [List.filter_append]
          have hy : (([(y1, y2)] : List TV).filter
              fun tv => tv.1.bid = y1.bid) = [(y1, y2)] := by simp
          rw [hy, List.getLast?_concat]
        · exact ⟨(y1, y2), rfl, rfl⟩
      · have hupd : Arbitrage.updateBestBid (some (c1, c2)) y1 y2 =
            some (c1, c2) := by
          simp [Arbitrage.updateBestBid, hcbid, hcmp]
        have hm : max (maxBidVal l) y1.bid = maxBidVal l :=
          max_eq_left (le_of_lt (lt_of_not_le hcmp))
        rw [hupd, hm]
        constructor
        · rw [List.filter_append]
          have hy : (([(y1, y2)] : List TV).filter
              fun tv => tv.1.bid = maxBidVal l) = [] := by
            have hne : y1.bid ≠ maxBidVal l := fun h => hcmp (le_of_eq h.symm)
            simp [hne]
          rw [hy, List.append_nil, ← hfold, hc]
        · exact ⟨(c1, c2), rfl, hcbid⟩

/-- Over a ticker-only stream the run loop's extremum fields are exactly
the two comparison folds. -/
theorem Arbitrage.runLoop_tickers_extrema (p : Arbitrage.Params) :
    ∀ (l : List TV) (s : Arbitrage.State),
      ((Arbitrage.runLoop p s (l.map fun tv => (.ticker tv.1, tv.2))).1).bestAsk =
          foldAsk s.bestAsk l ∧
      ((Arbitrage.runLoop p s (l.map fun tv => (.ticker tv.1, tv.2))).1).bestBid =
          foldBid s.bestBid l := by
  intro l
  induction l with
  | nil =>
      intro s
      simp [Arbitrage.runLoop, foldAsk, foldBid]
  | cons tv rest ih =>
      intro s
      rw [List.map_cons, Arbitrage.arbLoop_cons]
      have hs := Arbitrage.step_ticker_state p s tv.1 tv.2
      obtain ⟨ihA, ihB⟩ := ih (Arbitrage.step p s (.ticker tv.1) tv.2).1
      constructor
      · rw [ihA, hs]
        simp [foldAsk]
      · rw [ihB, hs]
        simp [foldBid]

/-- Claim C4: after any non-empty prefix of ticker events, the tracked
best ask is the most recent event attaining the minimum observed ask —
in particular its ask equals that minimum and ties are resolved
last-write-wins, venue included — and symmetrically the tracked best bid
is the most recent event attaining the maximum observed bid; before any
ticker both fields hold their sentinel (`none`, standing for the
`±INFINITY` sentinel tickers). -/
theorem c4_running_extrema (p : Arbitrage.Params) (x : TV) (xs : List TV) :
    ((Arbitrage.runLoop p (Arbitrage.initState p)
        ((x :: xs).map fun tv => (.ticker tv.1, tv.2))).1).bestAsk =
      ((x :: xs).filter fun tv => tv.1.ask = minAskVal (x :: xs)).getLast? ∧
    (∃ c, ((Arbitrage.runLoop p (Arbitrage.initState p)
        ((x :: xs).map fun tv => (.ticker tv.1, tv.2))).1).bestAsk = some c ∧
      c.1.ask = minAskVal (x :: xs)) ∧
    ((Arbitrage.runLoop p (Arbitrage.initState p)
        ((x :: xs).map fun tv => (.ticker tv.1, tv.2))).1).bestBid =
      ((x :: xs).filter fun tv => tv.1.bid = maxBidVal (x :: xs)).getLast? ∧
    (∃ c, ((Arbitrage.runLoop p (Arbitrage.initState p)
        ((x :: xs).map fun tv => (.ticker tv.1, tv.2))).1).bestBid = some c ∧
      c.1.bid = maxBidVal (x :: xs)) ∧
    (Arbitrage.initState p).bestAsk = none ∧
    (Arbitrage.initState p).bestBid = none := by
  obtain ⟨hA, hB⟩ :=
    Arbitrage.runLoop_tickers_extrema p (x :: xs) (Arbitrage.initState p)
  have hinitA : (Arbitrage.initState p).bestAsk = none := rfl
  have hinitB : (Arbitrage.initState p).bestBid = none := rfl
  rw [hinitA] at hA
  rw [hinitB] at hB
  obtain ⟨haskLast, haskVal⟩ := foldAsk_char (x :: xs) (List.cons_ne_nil x xs)
  obtain ⟨hbidLast, hbidVal⟩ := foldBid_char (x :: xs) (List.cons_ne_nil x xs)
  refine ⟨?_, ?_, ?_, ?_, rfl, rfl⟩
  · rw [hA, haskLast]
  · rw [hA]; exact haskVal
  · rw [hB, hbidLast]
  · rw [hB]; exact hbidVal

/-- The required-key loop succeeds iff every listed key is present. -/
theorem Config.checkRequired_ok_iff (c : List (String × String)) :
    ∀ ks : List String,
      Config.checkRequired c ks = .ok () ↔
        ∀ k ∈ ks, (Config.findKey k c).isSome := by
  intro ks
  induction ks with
  | nil => simp [Config.checkRequired]
  | cons k rest ih =>
      cases h : Config.findKey k c with
      | none => simp [Config.checkRequired, h, ih]
      | some v => simp [Config.checkRequired, h, ih]

/-- A required-key loop failure names a listed key that is absent. -/
theorem Config.checkRequired_error (c : List (String × String)) :
    ∀ (ks : List String) (e : Config.ConfigError),
      Config.checkRequired c ks = .error e →
      ∃ k, e = .validationError k ∧ k ∈ ks ∧ Config.findKey k c = none := by
  intro ks
  induction ks with
  | nil => intro e h; simp [Config.checkRequired] at h
  | cons k rest ih =>
      intro e h
      cases hk : Config.findKey k c with
      | none =>
          rw [Config.checkRequired, hk] at h
          cases h
          exact ⟨k, rfl, List.mem_cons_self k rest, hk⟩
      | some v =>
          rw [Config.checkRequired, hk] at h
          obtain ⟨k2, he, hmem, hnone⟩ := ih e h
          exact ⟨k2, he, List.mem_cons_of_mem k hmem, hnone⟩

/-- An absent listed key makes the required-key loop fail with a
`ValidationError`. -/
theorem Config.checkRequired_error_exists (c : List (String × String)) :
    ∀ ks : List String, (∃ k ∈ ks, Config.findKey k c = none) →
      ∃ k, Config.checkRequired c ks = .error (.validationError k) := by
  intro ks
  induction ks with
  | nil => rintro ⟨k, hk, _⟩; cases hk
  | cons k rest ih =>
      rintro ⟨k2, hmem, hnone⟩
      cases hk : Config.findKey k c with
      | none => exact ⟨k, by rw [Config.checkRequired, hk]⟩
      | some v =>
          rcases List.mem_cons.mp hmem with rfl | hmem2
          · rw [hk] at hnone
            cases hnone
          · obtain ⟨k3, h3⟩ := ih ⟨k2, hmem2, hnone⟩
            exact ⟨k3, by rw [Config.checkRequired, hk]; exact h3⟩

/-- A subscript-sequence failure is a `KeyError` naming an absent listed
key. -/
theorem Config.readAll_error (c : List (String × String)) :
    ∀ (ks : List String) (e : Config.ConfigError),
      Config.readAll c ks = .error e →
      ∃ k, e = .keyError k ∧ k ∈ ks ∧ Config.findKey k c = none := by
  intro ks
  induction ks with
  | nil => intro e h; simp [Config.readAll] at h
  | cons k rest ih =>
      intro e h
      cases hk : Config.findKey k c with
      | none =>
          rw [Config.readAll, hk] at h
          cases h
          exact ⟨k, rfl, List.mem_cons_self k rest, hk⟩
      | some v =>
          rw [Config.readAll, hk] at h
          obtain ⟨k2, he, hmem, hnone⟩ := ih e h
          exact ⟨k2, he, List.mem_cons_of_mem k hmem, hnone⟩

/-- An absent listed key makes the subscript sequence fail with a
`KeyError` naming an absent listed key. -/
theorem Config.readAll_error_exists (c : List (String × String)) :
    ∀ ks : List String, (∃ k ∈ ks, Config.findKey k c = none) →
      ∃ k, Config.readAll c ks = .error (.keyError k) ∧
        k ∈ ks ∧ Config.findKey k c = none := by
  intro ks
  induction ks with
  | nil => rintro ⟨k, hk, _⟩; cases hk
  | cons k rest ih =>
      rintro ⟨k2, hmem, hnone⟩
      cases hk : Config.findKey k c with
      | none =>
          exact ⟨k, by rw [Config.readAll, hk], List.mem_cons_self k rest, hk⟩
      | some v =>
          rcases List.mem_cons.mp hmem with rfl | hmem2
          · rw [hk] at hnone
            cases hnone
          · obtain ⟨k3, h3, hm3, hn3⟩ := ih ⟨k2, hmem2, hnone⟩
            exact ⟨k3, by rw [Config.readAll, hk]; exact h3,
              List.mem_cons_of_mem k hm3, hn3⟩

/-- `Config.__init__` is the required-key loop followed by the
subscript sequence. -/
theorem Config.init_cases (c : List (String × String)) :
    (Config.checkRequired c Config.REQUIRED_KEYS = .ok () →
      Config.init c = Config.readAll c Config.READ_ORDER) ∧
    (∀ e, Config.checkRequired c Config.REQUIRED_KEYS = .error e →
      Config.init c = .error e) := by
  constructor
  · intro h
    unfold Config.init
    rw [h]
    rfl
  · intro e h
    unfold Config.init
    rw [h]
    rfl

/-- Claim C10: constructing `Config` raises `ValidationError` (naming an
absent required key) iff one of the twelve `REQUIRED_KEYS` is absent;
and a mapping containing all twelve required keys but lacking
`ACCOUNT_ADDRESS` or `MIN_AMOUNT_TRADE` — which the constructor reads
but does not require — raises `KeyError` (for one of those two keys)
instead. -/
theorem c10_config_validation (c : List (String × String)) :
    (∀ k, Config.init c = .error (.validationError k) →
        k ∈ Config.REQUIRED_KEYS ∧ Config.findKey k c = none) ∧
    ((∃ k, Config.init c = .error (.validationError k)) ↔
      ∃ k ∈ Config.REQUIRED_KEYS, Config.findKey k c = none) ∧
    ((∀ k ∈ Config.REQUIRED_KEYS, (Config.findKey k c).isSome) →
      (Config.findKey "ACCOUNT_ADDRESS" c = none ∨
        Config.findKey "MIN_AMOUNT_TRADE" c = none) →
      ∃ k, Config.init c = .error (.keyError k) ∧
        (k = "ACCOUNT_ADDRESS" ∨ k = "MIN_AMOUNT_TRADE")) := by
  have hpart1 : ∀ k, Config.init c = .error (.validationError k) →
      k ∈ Config.REQUIRED_KEYS ∧ Config.findKey k c = none := by
    intro k h
    cases hc : Config.checkRequired c Config.REQUIRED_KEYS with
    | ok u =>
        cases u
        rw [(Config.init_cases c).1 hc] at h
        obtain ⟨k2, he, _, _⟩ := Config.readAll_error c Config.READ_ORDER _ h
        cases he
    | error e =>
        rw [(Config.init_cases c).2 e hc] at h
        obtain ⟨k2, he, hmem, hnone⟩ :=
          Config.checkRequired_error c Config.REQUIRED_KEYS e hc
        subst he
        cases h
        exact ⟨hmem, hnone⟩
  refine ⟨hpart1, ⟨?_, ?_⟩, ?_⟩
  · rintro ⟨k, hk⟩
    obtain ⟨hmem, hnone⟩ := hpart1 k hk
    exact ⟨k, hmem, hnone⟩
  · rintro ⟨k, hmem, hnone⟩
    obtain ⟨k2, h2⟩ :=
      Config.checkRequired_error_exists c Config.REQUIRED_KEYS ⟨k, hmem, hnone⟩
    exact ⟨k2, (Config.init_cases c).2 _ h2⟩
  · intro hall hmiss
    have hok : Config.checkRequired c Config.REQUIRED_KEYS = .ok () :=
      (Config.checkRequired_ok_iff c Config.REQUIRED_KEYS).mpr hall
    have hex : ∃ k ∈ Config.READ_ORDER, Config.findKey k c = none := by
      rcases hmiss with h | h
      · exact ⟨"ACCOUNT_ADDRESS", by simp [Config.READ_ORDER], h⟩
      · exact ⟨"MIN_AMOUNT_TRADE", by simp [Config.READ_ORDER], h⟩
    obtain ⟨k, herr, hkmem, hknone⟩ :=
      Config.readAll_error_exists c Config.READ_ORDER hex
    refine ⟨k, by rw [(Config.init_cases c).1 hok]; exact herr, ?_⟩
    have hkreq : k ∉ Config.REQUIRED_KEYS := by
      intro hmem2
      have hs := hall k hmem2
      rw [hknone] at hs
      cases hs
    simp only [Config.READ_ORDER, List.mem_cons, List.not_mem_nil, or_false] at hkmem
    rcases hkmem with rfl | rfl | rfl | rfl | rfl | rfl | rfl | rfl | rfl |
      rfl | rfl | rfl | rfl | rfl
    all_goals first
      | exact Or.inl rfl
      | exact Or.inr rfl
      | (exact absurd (by simp [Config.REQUIRED_KEYS]) hkreq)

/-- Witness for `c10_config_validation`: a mapping holding all twelve
required keys but no `ACCOUNT_ADDRESS` raises `KeyError` rather than
`ValidationError`. -/
theorem c10_config_validation_witness :
    Config.init
      [("BASE_ADDR", "a"), ("BASE_DECIMALS", "18"), ("BASE", "ETH"),
       ("QUOTE_ADDR", "q"), ("QUOTE_DECIMALS", "6"), ("QUOTE", "USDC"),
       ("API_KEY", "k"), ("SECRET_KEY", "s"), ("SIGNER_KEY", "g"),
       ("NODE_URL", "n"), ("SPREAD_THRESHOLD", "0.01"),
       ("MAX_AMOUNT_TRADE", "10")] =
      .error (.keyError "ACCOUNT_ADDRESS") := by
  obtain ⟨k, hk, _⟩ := (c10_config_validation
      [("BASE_ADDR", "a"), ("BASE_DECIMALS", "18"), ("BASE", "ETH"),
       ("QUOTE_ADDR", "q"), ("QUOTE_DECIMALS", "6"), ("QUOTE", "USDC"),
       ("API_KEY", "k"), ("SECRET_KEY", "s"), ("SIGNER_KEY", "g"),
       ("NODE_URL", "n"), ("SPREAD_THRESHOLD", "0.01"),
       ("MAX_AMOUNT_TRADE", "10")]).2.2
    (by decide) (Or.inl (by decide))
  rfl

/-- With the three divisors non-zero, a pair's row computation yields
the row with the prescribed fields. -/
theorem SpreadMonitor.mkRow_ok (now : ℕ) (exA exB : String)
    (e1 e2 : SpreadMonitor.PriceEntry) (h1 : e1.last_price ≠ 0)
    (h2 : e1.ask ≠ 0) (h3 : e2.ask ≠ 0) :
    SpreadMonitor.mkRow now exA exB e1 e2 = .ok
      { timestamp := now
        exA := exA
        exB := exB
        spread_prices := |e1.last_price - e2.last_price|
        spread_perc := |e1.last_price - e2.last_price| / e1.last_price
        spread_ex1 := e1.ask - e2.bid
        spread_ex1_perc := (e1.ask - e2.bid) / e1.ask
        spread_ex2 := e2.ask - e1.bid
        spread_ex2_perc := (e2.ask - e1.bid) / e2.ask
        a_last := e1.last_price
        a_bid := e1.bid
        a_ask := e1.ask
        b_last := e2.last_price
        b_bid := e2.bid
        b_ask := e2.ask } := by
  simp [SpreadMonitor.mkRow, h1, h2, h3]

/-- A successful row computation produced exactly the prescribed
fields. -/
theorem SpreadMonitor.mkRow_ok_shape (now : ℕ) (exA exB : String)
    (e1 e2 : SpreadMonitor.PriceEntry) (r : SpreadRow) :
    SpreadMonitor.mkRow now exA exB e1 e2 = .ok r →
    r = { timestamp := now
          exA := exA
          exB := exB
          spread_prices := |e1.last_price - e2.last_price|
          spread_perc := |e1.last_price - e2.last_price| / e1.last_price
          spread_ex1 := e1.ask - e2.bid
          spread_ex1_perc := (e1.ask - e2.bid) / e1.ask
          spread_ex2 := e2.ask - e1.bid
          spread_ex2_perc := (e2.ask - e1.bid) / e2.ask
          a_last := e1.last_price
          a_bid := e1.bid
          a_ask := e1.ask
          b_last := e2.last_price
          b_bid := e2.bid
          b_ask := e2.ask } := by
  unfold SpreadMonitor.mkRow
  intro h
  split at h
  · cases h
  · split at h
    · cases h
    · split at h
      · cases h
      · cases h
        rfl

/-- A successful pass over the stored entries produced exactly one row,
with the prescribed fields, per key other than the updating venue's. -/
theorem SpreadMonitor.rowsFor_ok_shape (now : ℕ) (exName : String)
    (e1 : SpreadMonitor.PriceEntry) :
    ∀ (lp : List (String × SpreadMonitor.PriceEntry)) (rows : List Effect),
      SpreadMonitor.rowsFor now exName e1 lp = .ok rows →
      rows = (lp.filter fun kv => kv.1 ≠ exName).map
        (fun kv => .insertRow
          { timestamp := now
            exA := exName
            exB := kv.1
            spread_prices := |e1.last_price - kv.2.last_price|
            spread_perc := |e1.last_price - kv.2.last_price| / e1.last_price
            spread_ex1 := e1.ask - kv.2.bid
            spread_ex1_perc := (e1.ask - kv.2.bid) / e1.ask
            spread_ex2 := kv.2.ask - e1.bid
            spread_ex2_perc := (kv.2.ask - e1.bid) / kv.2.ask
            a_last := e1.last_price
            a_bid := e1.bid
            a_ask := e1.ask
            b_last := kv.2.last_price
            b_bid := kv.2.bid
            b_ask := kv.2.ask }) := by
  intro lp
  induction lp with
  | nil =>
      intro rows h
      cases h
      simp
  | cons kv rest ih =>
      intro rows h
      rw [SpreadMonitor.rowsFor] at h
      by_cases hk : kv.1 = exName
      · rw [if_pos hk] at h
        simpa [List.filter_cons, hk] using ih rows h
      · rw [if_neg hk] at h
        cases hr : SpreadMonitor.mkRow now exName kv.1 e1 kv.2 with
        | error e =>
            rw [hr] at h
            cases h
        | ok r =>
            rw [hr] at h
            cases hrs : SpreadMonitor.rowsFor now exName e1 rest with
            | error e =>
                rw [hrs] at h
                cases h
            | ok rs =>
                rw [hrs] at h
                cases h
                have hr2 :=
                  SpreadMonitor.mkRow_ok_shape now exName kv.1 e1 kv.2 r hr
                subst hr2
                simpa [List.filter_cons, hk] using ih rs hrs

/-- With the updating venue's divisors and every other stored ask
non-zero, the pass over the stored entries succeeds with the
filter-and-map row list. -/
theorem SpreadMonitor.rowsFor_ok (now : ℕ) (exName : String)
    (e1 : SpreadMonitor.PriceEntry) (h1 : e1.last_price ≠ 0)
    (h2 : e1.ask ≠ 0) :
    ∀ lp : List (String × SpreadMonitor.PriceEntry),
      (∀ kv ∈ lp, kv.1 ≠ exName → kv.2.ask ≠ 0) →
      SpreadMonitor.rowsFor now exName e1 lp = .ok
        ((lp.filter fun kv => kv.1 ≠ exName).map
          (fun kv => .insertRow
            { timestamp := now
              exA := exName
              exB := kv.1
              spread_prices := |e1.last_price - kv.2.last_price|
              spread_perc := |e1.last_price - kv.2.last_price| / e1.last_price
              spread_ex1 := e1.ask - kv.2.bid
              spread_ex1_perc := (e1.ask - kv.2.bid) / e1.ask
              spread_ex2 := kv.2.ask - e1.bid
              spread_ex2_perc := (kv.2.ask - e1.bid) / kv.2.ask
              a_last := e1.last_price
              a_bid := e1.bid
              a_ask := e1.ask
              b_last := kv.2.last_price
              b_bid := kv.2.bid
              b_ask := kv.2.ask })) := by
  intro lp
  induction lp with
  | nil =>
      intro _
      simp [SpreadMonitor.rowsFor]
  | cons kv rest ih =>
      intro hz
      rw [SpreadMonitor.rowsFor]
      by_cases hk : kv.1 = exName
      · rw [if_pos hk,
          ih (fun kv2 hm hne => hz kv2 (List.mem_cons_of_mem kv hm) hne)]
        simp [List.filter_cons, hk]
      · rw [if_neg hk,
          SpreadMonitor.mkRow_ok now exName kv.1 e1 kv.2 h1 h2
            (hz kv (List.mem_cons_self kv rest) hk),
          ih (fun kv2 hm hne => hz kv2 (List.mem_cons_of_mem kv hm) hne)]
        simp [List.filter_cons, hk]

/-- A zero last price on the updating venue faults the pass as soon as
any other venue has been seen: the first relative spread divides by it. -/
theorem SpreadMonitor.rowsFor_zero_last (now : ℕ) (exName : String)
    (e1 : SpreadMonitor.PriceEntry) (hz : e1.last_price = 0) :
    ∀ lp : List (String × SpreadMonitor.PriceEntry),
      (∃ kv ∈ lp, kv.1 ≠ exName) →
      SpreadMonitor.rowsFor now exName e1 lp = .error .divisionByZero := by
  intro lp
  induction lp with
  | nil =>
      rintro ⟨kv, hm, _⟩
      cases hm
  | cons kv rest ih =>
      rintro ⟨kv2, hm, hne⟩
      rw [SpreadMonitor.rowsFor]
      by_cases hk : kv.1 = exName
      · rw [if_pos hk]
        rcases List.mem_cons.mp hm with rfl | hm2
        · exact absurd hk hne
        · exact ih ⟨kv2, hm2, hne⟩
      · rw [if_neg hk]
        have hmk : SpreadMonitor.mkRow now exName kv.1 e1 kv.2 =
            .error .divisionByZero := by
          simp [SpreadMonitor.mkRow, hz]
        rw [hmk]

/-- Overwriting one venue's entry does not change how often any other
key occurs. -/
theorem SpreadMonitor.countP_updateEntry (b name : String)
    (e : SpreadMonitor.PriceEntry) (hne : b ≠ name) :
    ∀ l : List (String × SpreadMonitor.PriceEntry),
      (SpreadMonitor.updateEntry name e l).countP (fun kv => kv.1 = b) =
        l.countP (fun kv => kv.1 = b) := by
  intro l
  induction l with
  | nil =>
      simp [SpreadMonitor.updateEntry, List.countP_cons, Ne.symm hne]
  | cons kv rest ih =>
      by_cases h : kv.1 = name
      · simp [SpreadMonitor.updateEntry, h, List.countP_cons, Ne.symm hne]
      · simp [SpreadMonitor.updateEntry, h, List.countP_cons, ih]

/-- In an association list with distinct keys, a key occurs once if
present and never otherwise. -/
theorem SpreadMonitor.countP_key (b : String) :
    ∀ l : List (String × SpreadMonitor.PriceEntry),
      (l.map Prod.fst).Nodup →
      l.countP (fun kv => kv.1 = b) = if b ∈ l.map Prod.fst then 1 else 0 := by
  intro l
  induction l with
  | nil => intro _; simp
  | cons kv rest ih =>
      intro hnd
      rw [List.map_cons, List.nodup_cons] at hnd
      obtain ⟨hnotin, hnd2⟩ := hnd
      by_cases h : kv.1 = b
      · subst h
        rw [List.countP_cons]
        simp [ih hnd2, hnotin]
      · have hne2 : ¬(b = kv.1) := fun hh => h hh.symm
        rw [List.countP_cons]
        have hmem : (b ∈ kv.1 :: List.map Prod.fst rest) ↔
            (b ∈ List.map Prod.fst rest) := by
          simp [List.mem_cons, hne2]
        have hco : (if decide (kv.1 = b) = true then 1 else 0) = 0 := by
          simp [h]
        rw [ih hnd2, hco, Nat.add_zero]
        exact (if_congr hmem rfl rfl).symm

/-- Claim C8, counterexample.  The claim asserts one appended row per
other previously-seen venue for *every* incoming ticker.  Venue `bin`
has been seen (last 100, bid 99, ask 101) when `avnu` reports a last
price of 0: the relative last-price spread divides by that zero, the
iteration raises the trapped `DivisionByZero`, and no row is appended —
although a previously-seen other venue exists. -/
theorem c8_monitor_zero_divisor_counterexample :
    SpreadMonitor.step 2 ⟨[("bin", ⟨100, 99, 101⟩)]⟩
        ⟨.flat "avnu" 0, 102, 104⟩ = .error .divisionByZero ∧
    "bin" ∈ ([(("bin" : String),
        (⟨100, 99, 101⟩ : SpreadMonitor.PriceEntry))].map Prod.fst) ∧
    ("bin" : String) ≠ "avnu" := by
  refine ⟨?_, by simp, by decide⟩
  rfl

/-- Claim C8, amended: a monitor iteration on a ticker from venue A
appends exactly one row per other previously-seen venue B — each row
carrying the timestamp, the two venue names, the absolute last-price
spread with its relative form, the ask-of-A-vs-bid-of-B and
ask-of-B-vs-bid-of-A spreads each with its relative form, and both
venues' raw last price, bid and ask — provided A's last price and ask
and every other seen venue's stored ask are non-zero; when the last
price of A is zero (and another venue has been seen) the iteration
raises the Decimal division fault and appends no row at all; and a
monitor run only ever inserts rows — it never places a buy or sell
order. -/
theorem c8_monitor_pairwise_rows :
    (∀ (now : ℕ) (s : SpreadMonitor.State) (msg : SpreadMonitor.MonMsg),
      (SpreadMonitor.entryOf msg).2.last_price ≠ 0 →
      (SpreadMonitor.entryOf msg).2.ask ≠ 0 →
      (∀ kv ∈ SpreadMonitor.updateEntry (SpreadMonitor.entryOf msg).1
          (SpreadMonitor.entryOf msg).2 s.last_prices,
        kv.1 ≠ (SpreadMonitor.entryOf msg).1 → kv.2.ask ≠ 0) →
      SpreadMonitor.step now s msg = .ok
        (⟨SpreadMonitor.updateEntry (SpreadMonitor.entryOf msg).1
            (SpreadMonitor.entryOf msg).2 s.last_prices⟩,
         ((SpreadMonitor.updateEntry (SpreadMonitor.entryOf msg).1
             (SpreadMonitor.entryOf msg).2 s.last_prices).filter
            (fun kv => kv.1 ≠ (SpreadMonitor.entryOf msg).1)).map
           (fun kv => .insertRow
             { timestamp := now
               exA := (SpreadMonitor.entryOf msg).1
               exB := kv.1
               spread_prices :=
                 |(SpreadMonitor.entryOf msg).2.last_price - kv.2.last_price|
               spread_perc :=
                 |(SpreadMonitor.entryOf msg).2.last_price - kv.2.last_price| /
                   (SpreadMonitor.entryOf msg).2.last_price
               spread_ex1 := (SpreadMonitor.entryOf msg).2.ask - kv.2.bid
               spread_ex1_perc :=
                 ((SpreadMonitor.entryOf msg).2.ask - kv.2.bid) /
                   (SpreadMonitor.entryOf msg).2.ask
               spread_ex2 := kv.2.ask - (SpreadMonitor.entryOf msg).2.bid
               spread_ex2_perc :=
                 (kv.2.ask - (SpreadMonitor.entryOf msg).2.bid) / kv.2.ask
               a_last := (SpreadMonitor.entryOf msg).2.last_price
               a_bid := (SpreadMonitor.entryOf msg).2.bid
               a_ask := (SpreadMonitor.entryOf msg).2.ask
               b_last := kv.2.last_price
               b_bid := kv.2.bid
               b_ask := kv.2.ask }))) ∧
    (∀ (now : ℕ) (s : SpreadMonitor.State) (msg : SpreadMonitor.MonMsg)
        (b : String) (s1 : SpreadMonitor.State) (effs : List Effect),
      (s.last_prices.map Prod.fst).Nodup →
      b ≠ (SpreadMonitor.entryOf msg).1 →
      SpreadMonitor.step now s msg = .ok (s1, effs) →
      effs.countP (rowFor b) =
        if b ∈ s.last_prices.map Prod.fst then 1 else 0) ∧
    (∀ (s : SpreadMonitor.State) (evs : List (ℕ × SpreadMonitor.MonMsg)),
      ∀ e ∈ (SpreadMonitor.runLoop s evs).1, ∃ r, e = .insertRow r) ∧
    (∀ (now : ℕ) (s : SpreadMonitor.State) (msg : SpreadMonitor.MonMsg),
      (∃ kv ∈ SpreadMonitor.updateEntry (SpreadMonitor.entryOf msg).1
          (SpreadMonitor.entryOf msg).2 s.last_prices,
        kv.1 ≠ (SpreadMonitor.entryOf msg).1) →
      (SpreadMonitor.entryOf msg).2.last_price = 0 →
      SpreadMonitor.step now s msg = .error .divisionByZero) := by
  refine ⟨?_, ?_, ?_, ?_⟩
  · intro now s msg h1 h2 h3
    simp only [SpreadMonitor.step]
    rw [SpreadMonitor.rowsFor_ok now (SpreadMonitor.entryOf msg).1
      (SpreadMonitor.entryOf msg).2 h1 h2 _ h3]
  · intro now s msg b s1 effs hnd hb hstep
    simp only [SpreadMonitor.step] at hstep
    cases hr : SpreadMonitor.rowsFor now (SpreadMonitor.entryOf msg).1
        (SpreadMonitor.entryOf msg).2
        (SpreadMonitor.updateEntry (SpreadMonitor.entryOf msg).1
          (SpreadMonitor.entryOf msg).2 s.last_prices) with
    | error e =>
        rw [hr] at hstep
        cases hstep
    | ok rows =>
        rw [hr] at hstep
        cases hstep
        have hshape := SpreadMonitor.rowsFor_ok_shape now
          (SpreadMonitor.entryOf msg).1 (SpreadMonitor.entryOf msg).2 _ effs hr
        subst hshape
        rw [List.countP_map, List.countP_filter]
        have hpt : ∀ kv ∈ SpreadMonitor.updateEntry (SpreadMonitor.entryOf msg).1
            (SpreadMonitor.entryOf msg).2 s.last_prices,
            ((rowFor b ∘ fun kv : String × SpreadMonitor.PriceEntry =>
                Effect.insertRow
                  { timestamp := now
                    exA := (SpreadMonitor.entryOf msg).1
                    exB := kv.1
                    spread_prices :=
                      |(SpreadMonitor.entryOf msg).2.last_price - kv.2.last_price|
                    spread_perc :=
                      |(SpreadMonitor.entryOf msg).2.last_price -
                        kv.2.last_price| /
                        (SpreadMonitor.entryOf msg).2.last_price
                    spread_ex1 := (SpreadMonitor.entryOf msg).2.ask - kv.2.bid
                    spread_ex1_perc :=
                      ((SpreadMonitor.entryOf msg).2.ask - kv.2.bid) /
                        (SpreadMonitor.entryOf msg).2.ask
                    spread_ex2 := kv.2.ask - (SpreadMonitor.entryOf msg).2.bid
                    spread_ex2_perc :=
                      (kv.2.ask - (SpreadMonitor.entryOf msg).2.bid) / kv.2.ask
                    a_last := (SpreadMonitor.entryOf msg).2.last_price
                    a_bid := (SpreadMonitor.entryOf msg).2.bid
                    a_ask := (SpreadMonitor.entryOf msg).2.ask
                    b_last := kv.2.last_price
                    b_bid := kv.2.bid
                    b_ask := kv.2.ask }) kv &&
              decide (kv.1 ≠ (SpreadMonitor.entryOf msg).1)) = true ↔
            (fun kv : String × SpreadMonitor.PriceEntry =>
              decide (kv.1 = b)) kv = true := by
          intro kv _
          simp only [Function.comp, rowFor, Bool.and_eq_true, decide_eq_true_eq]
          constructor
          · rintro ⟨hh, _⟩
            exact hh
          · intro hh
            exact ⟨hh, by rw [hh]; exact hb⟩
        rw [List.countP_congr hpt]
        rw [SpreadMonitor.countP_updateEntry b (SpreadMonitor.entryOf msg).1
          (SpreadMonitor.entryOf msg).2 hb s.last_prices]
        exact SpreadMonitor.countP_key b s.last_prices hnd
  · intro s evs
    induction evs generalizing s with
    | nil =>
        intro e he
        simp [SpreadMonitor.runLoop] at he
    | cons ev rest ih =>
        obtain ⟨now, msg⟩ := ev
        intro e he
        rw [SpreadMonitor.runLoop] at he
        cases hstep : SpreadMonitor.step now s msg with
        | error er =>
            rw [hstep] at he
            simp at he
        | ok p =>
            obtain ⟨s1, effs⟩ := p
            rw [hstep] at he
            rcases List.mem_append.mp he with hmem | hmem
            · simp only [SpreadMonitor.step] at hstep
              cases hr : SpreadMonitor.rowsFor now (SpreadMonitor.entryOf msg).1
                  (SpreadMonitor.entryOf msg).2
                  (SpreadMonitor.updateEntry (SpreadMonitor.entryOf msg).1
                    (SpreadMonitor.entryOf msg).2 s.last_prices) with
              | error e2 =>
                  rw [hr] at hstep
                  cases hstep
              | ok rows =>
                  rw [hr] at hstep
                  cases hstep
                  have hshape := SpreadMonitor.rowsFor_ok_shape now
                    (SpreadMonitor.entryOf msg).1 (SpreadMonitor.entryOf msg).2
                    _ effs hr
                  rw [hshape] at hmem
                  obtain ⟨kv, _, hkv⟩ := List.mem_map.mp hmem
                  exact ⟨_, hkv.symm⟩
            · exact ih s1 e hmem
  · intro now s msg hex hz
    simp only [SpreadMonitor.step]
    rw [SpreadMonitor.rowsFor_zero_last now (SpreadMonitor.entryOf msg).1
      (SpreadMonitor.entryOf msg).2 hz _ hex]

/-- Witness for `c8_monitor_pairwise_rows`: a ticker from `avnu` with
non-zero prices arriving while `bin` (also with non-zero prices) has
been seen succeeds and produces exactly one row pairing `avnu` with
`bin`. -/
theorem c8_monitor_pairwise_rows_witness :
    SpreadMonitor.step 2 ⟨[("bin", ⟨100, 99, 101⟩)]⟩
        ⟨.nested "avnu" 103, 102, 104⟩ = .ok
      (⟨[("bin", ⟨100, 99, 101⟩), ("avnu", ⟨103, 102, 104⟩)]⟩,
       [.insertRow ⟨2, "avnu", "bin", 3, 3 / 103, 5, 5 / 104, -1, -1 / 101,
          103, 102, 104, 100, 99, 101⟩]) ∧
    ([.insertRow (⟨2, "avnu", "bin", 3, 3 / 103, 5, 5 / 104, -1, -1 / 101,
        103, 102, 104, 100, 99, 101⟩ : SpreadRow)] :
      List Effect).countP (rowFor "bin") = 1 := by
  have hstep : SpreadMonitor.step 2 ⟨[("bin", ⟨100, 99, 101⟩)]⟩
      ⟨.nested "avnu" 103, 102, 104⟩ = .ok
        (⟨[("bin", ⟨100, 99, 101⟩), ("avnu", ⟨103, 102, 104⟩)]⟩,
         [.insertRow ⟨2, "avnu", "bin", 3, 3 / 103, 5, 5 / 104, -1, -1 / 101,
            103, 102, 104, 100, 99, 101⟩]) := by
    rw [c8_monitor_pairwise_rows.1 2 ⟨[("bin", ⟨100, 99, 101⟩)]⟩
      ⟨.nested "avnu" 103, 102, 104⟩ (by norm_num [SpreadMonitor.entryOf])
      (by norm_num [SpreadMonitor.entryOf]) (by decide)]
    simp +decide [SpreadMonitor.entryOf, SpreadMonitor.updateEntry]
    norm_num
  refine ⟨hstep, ?_⟩
  have h2 := c8_monitor_pairwise_rows.2.1 2 ⟨[("bin", ⟨100, 99, 101⟩)]⟩
    ⟨.nested "avnu" 103, 102, 104⟩ "bin" _ _ (by simp) (by decide) hstep
  simpa using h2
end StarkShift
